import Mathlib

/-!
# Verification of the to-do list manager (`todo_list.py`)

Shallow embedding of the `Task` entity and the `TodoList` manager.

Modelling conventions:
* `datetime` values are abstract clock ticks (`Nat`); every operation that
  reads the system clock in the source takes the current tick as an
  explicit `now` argument.  `datetime.isoformat` / `datetime.fromisoformat`
  are modelled as the decimal rendering of the tick and its parse
  (a lossless string encoding, like ISO-8601 rendering of a datetime).
* A raised Python exception is a `PyError`: the exception class name
  (`kind`) plus the message.  Both raise sites in the source construct
  `ValueError`.
* Persistence: the JSON document stored in the backing file is a
  `List TaskDict` (one `TaskDict` per `Task.to_dict` record).  Each
  mutating operation returns, besides the result and the new state, the
  list of file writes it performed (`writes`), each write being the full
  serialized payload; `_save` performs one write when a `storage_path` is
  configured and none otherwise.
* The `Task` objects returned by `_find_task_by_id` are mutable references
  into the list; this is embedded as the index of the first task whose id
  matches, with in-place mutation rendered as `List.set` at that index.
-/

deriving instance DecidableEq for Except

namespace Todo

/-- Python's `str.strip()`: remove leading and trailing whitespace. -/
def strip (s : String) : String :=
  String.mk (((s.data.dropWhile Char.isWhitespace).reverse.dropWhile Char.isWhitespace).reverse)

/-- A raised Python exception: its class name and its message.  Both raise
sites of `todo_list.py` use the class `ValueError`. -/
structure PyError where
  kind : String
  msg : String
deriving DecidableEq, Repr

/-- `Task` dataclass: id, title, status string ("pending"/"completed"),
creation tick, optional completion tick. -/
structure Task where
  id : Nat
  title : String
  status : String := "pending"
  created_at : Nat
  completed_at : Option Nat := none
deriving DecidableEq, Repr

/-- `Task.mark_completed`: set status to "completed" and stamp
`completed_at` with the current time, unconditionally. -/
def Task.mark_completed (t : Task) (now : Nat) : Task :=
  { t with status := "completed", completed_at := some now }

/-- `datetime.isoformat`: lossless rendering of a clock tick to a string
(modelled as the decimal numeral). -/
def isoformat (t : Nat) : String := Nat.repr t

/-- `datetime.fromisoformat`: parse the rendering back (decimal parse). -/
def fromisoformat (s : String) : Nat := s.toNat!

/-- The JSON record produced by `Task.to_dict`: the five keys, with
`completed_at` an explicit `null` (`none`) when absent. -/
structure TaskDict where
  id : Nat
  title : String
  status : String
  created_at : String
  completed_at : Option String
deriving DecidableEq, Repr

/-- `Task.to_dict`. -/
def Task.to_dict (t : Task) : TaskDict :=
  { id := t.id
    title := t.title
    status := t.status
    created_at := isoformat t.created_at
    completed_at := t.completed_at.map isoformat }

/-- `Task.from_dict`.  `data.get("completed_at")` is falsy when the key is
`null` or the empty string, hence the `isEmpty` test. -/
def Task.from_dict (d : TaskDict) : Task :=
  { id := d.id
    title := d.title
    status := d.status
    created_at := fromisoformat d.created_at
    completed_at :=
      match d.completed_at with
      | some s => if s.isEmpty then none else some (fromisoformat s)
      | none => none }

/-- The `TodoList` manager's fields: `storage_path`, `_tasks`, `_next_id`. -/
structure TodoList where
  storage_path : Option String
  tasks : List Task
  next_id : Nat
deriving DecidableEq, Repr

/-- Result of one public operation: the returned value or the raised
exception, the manager state afterwards, and the sequence of file writes
performed (each a full serialized snapshot). -/
structure OpResult (α : Type) where
  ret : Except PyError α
  state : TodoList
  writes : List (List TaskDict)
deriving DecidableEq

/-- `TodoList._save`: one full-snapshot write when a store is configured,
no write otherwise. -/
def TodoList.save (st : TodoList) : List (List TaskDict) :=
  match st.storage_path with
  | none => []
  | some _ => [st.tasks.map Task.to_dict]

/-- `TodoList._load`: when a store is configured and the file exists,
replace the tasks with the parsed records and recompute `_next_id` as
`max(ids) + 1` (`0` default for an empty store). -/
def TodoList.load (st : TodoList) (file : Option (List TaskDict)) : TodoList :=
  match st.storage_path, file with
  | none, _ => st
  | some _, none => st
  | some _, some raw =>
    let tasks := raw.map Task.from_dict
    { st with tasks := tasks, next_id := (tasks.map Task.id).foldr max 0 + 1 }

/-- `TodoList.__init__`: empty list, counter 1, then `_load` when a
`storage_path` is given (`file` is the backing file's parsed contents,
`none` when the file does not exist). -/
def TodoList.init (storage_path : Option String) (file : Option (List TaskDict)) : TodoList :=
  let st : TodoList := { storage_path := storage_path, tasks := [], next_id := 1 }
  match storage_path with
  | none => st
  | some _ => st.load file

/-- The loop of `TodoList._find_task_by_id`: index and value of the first
task whose id matches, `none` when no task has the id. -/
def findTask : List Task → Nat → Option (Nat × Task)
  | [], _ => none
  | t :: rest, task_id =>
    if t.id == task_id then some (0, t)
    else (findTask rest task_id).map (fun p => (p.1 + 1, p.2))

/-- The message of the validation error raised on an empty trimmed title. -/
def emptyTitleMsg : String := "Task title cannot be empty"

/-- The message of the lookup error raised on an unknown task id. -/
def notFoundMsg (task_id : Nat) : String :=
  "Task with id " ++ Nat.repr task_id ++ " not found"

/-- `TodoList._find_task_by_id`: the found reference (index and task), or
the raised `ValueError`. -/
def TodoList.find_task_by_id (st : TodoList) (task_id : Nat) :
    Except PyError (Nat × Task) :=
  match findTask st.tasks task_id with
  | some p => .ok p
  | none => .error ⟨"ValueError", notFoundMsg task_id⟩

/-- `TodoList.add_task`. -/
def TodoList.add_task (st : TodoList) (title : String) (now : Nat) : OpResult Task :=
  if (strip title).isEmpty then
    ⟨.error ⟨"ValueError", emptyTitleMsg⟩, st, []⟩
  else
    let task : Task := { id := st.next_id, title := strip title, created_at := now }
    let st' := { st with next_id := st.next_id + 1, tasks := st.tasks ++ [task] }
    ⟨.ok task, st', st'.save⟩

/-- `TodoList.list_tasks`: `list(self._tasks)`, a fresh list holding the
tasks in insertion order. -/
def TodoList.list_tasks (st : TodoList) : List Task := st.tasks

/-- `TodoList.mark_completed`. -/
def TodoList.mark_completed (st : TodoList) (task_id : Nat) (now : Nat) : OpResult Task :=
  match st.find_task_by_id task_id with
  | .error e => ⟨.error e, st, []⟩
  | .ok (i, t) =>
    let t' := t.mark_completed now
    let st' := { st with tasks := st.tasks.set i t' }
    ⟨.ok t', st', st'.save⟩

/-- `TodoList.clear`: drop all tasks (the counter is untouched), persist. -/
def TodoList.clear (st : TodoList) : OpResult Unit :=
  let st' := { st with tasks := [] }
  ⟨.ok (), st', st'.save⟩

/-- `TodoList.update_task`. -/
def TodoList.update_task (st : TodoList) (task_id : Nat) (title : String) : OpResult Task :=
  if (strip title).isEmpty then
    ⟨.error ⟨"ValueError", emptyTitleMsg⟩, st, []⟩
  else
    match st.find_task_by_id task_id with
    | .error e => ⟨.error e, st, []⟩
    | .ok (i, t) =>
      let t' := { t with title := strip title }
      let st' := { st with tasks := st.tasks.set i t' }
      ⟨.ok t', st', st'.save⟩

/-- `TodoList.__len__`. -/
def TodoList.len (st : TodoList) : Nat := st.tasks.length

/-- The exception class of a raised error, `none` on success. -/
def errKind {α : Type} : Except PyError α → Option String
  | .error e => some e.kind
  | .ok _ => none

/-- The decimal digits of `n`, most significant first; this is what
`Nat.toDigitsCore` produces at base 10. -/
def digitsOf (n : Nat) : List Char :=
  if h : n < 10 then [Nat.digitChar n]
  else digitsOf (n / 10) ++ [Nat.digitChar (n % 10)]
termination_by n
decreasing_by exact Nat.div_lt_self (by omega) (by omega)

/-- One scripted call in a client session driving a `TodoList`: an
`add_task(title)` call at clock tick `now`, or a `clear()` call. -/
inductive ListOp where
  | add (title : String) (now : Nat)
  | clear
deriving DecidableEq

/-- Run a script of `add_task`/`clear` calls, collecting the ids of the
tasks returned by the successful `add_task` calls, in call order. -/
def runOps : TodoList → List ListOp → TodoList × List Nat
  | st, [] => (st, [])
  | st, ListOp.add title now :: rest =>
    let r := st.add_task title now
    let res := runOps r.state rest
    match r.ret with
    | .ok t => (res.1, t.id :: res.2)
    | .error _ => (res.1, res.2)
  | st, ListOp.clear :: rest => runOps (st.clear).state rest

/-- The number of `add_task` calls in a script. -/
def addCount : List ListOp → Nat
  | [] => 0
  | ListOp.add _ _ :: rest => addCount rest + 1
  | ListOp.clear :: rest => addCount rest

/-- Every `add_task` call in the script carries a title that is non-empty
after stripping. -/
def validTitles : List ListOp → Bool
  | [] => true
  | ListOp.add title _ :: rest => !(strip title).isEmpty && validTitles rest
  | ListOp.clear :: rest => validTitles rest

/-- The `TodoList` states reachable through the public interface: a fresh
construction (no store, or a store whose file does not exist yet), a
construction over a snapshot that some reachable list with a configured
store persisted, and any public mutating call on a reachable state
(failing calls included). -/
inductive Reachable : TodoList → Prop where
  | boot (p : Option String) : Reachable (TodoList.init p none)
  | reload (st : TodoList) (p : String) : Reachable st → st.storage_path = some p →
      Reachable (TodoList.init (some p) (some (st.tasks.map Task.to_dict)))
  | add (st : TodoList) (title : String) (now : Nat) :
      Reachable st → Reachable (st.add_task title now).state
  | complete (st : TodoList) (tid now : Nat) :
      Reachable st → Reachable (st.mark_completed tid now).state
  | update (st : TodoList) (tid : Nat) (title : String) :
      Reachable st → Reachable (st.update_task tid title).state
  | wipe (st : TodoList) : Reachable st → Reachable (st.clear).state

/-- The data invariant of the manager: task ids are unique and every id is
strictly below the next-id counter. -/
def Invariant (st : TodoList) : Prop :=
  (st.tasks.map Task.id).Nodup ∧ ∀ t ∈ st.tasks, t.id < st.next_id

example : ((TodoList.init none none).add_task "Buy milk" 3).ret
    = .ok { id := 1, title := "Buy milk", created_at := 3 } := by decide

example : ((TodoList.init none none).add_task "   " 3).ret
    = .error ⟨"ValueError", emptyTitleMsg⟩ := by decide

/-! ## The decimal rendering used by `isoformat` is lossless -/

theorem digitsOf_ne_nil (n : Nat) : digitsOf n ≠ [] := by
  rw [digitsOf]
  split <;> simp

theorem toDigitsCore_eq_digitsOf :
    ∀ (fuel n : Nat) (ds : List Char), n < fuel →
      Nat.toDigitsCore 10 fuel n ds = digitsOf n ++ ds := by
  intro fuel
  induction fuel with
  | zero => intro n ds h; omega
  | succ f ih =>
    intro n ds h
    simp only [Nat.toDigitsCore]
    by_cases h10 : n / 10 = 0
    · have hn : n < 10 := by omega
      rw [if_pos h10, digitsOf, dif_pos hn, Nat.mod_eq_of_lt hn]
      simp
    · have h0 : 0 < n := by omega
      have hlt : n / 10 < f := by
        have hd : n / 10 < n := Nat.div_lt_self h0 (by omega)
        omega
      rw [if_neg h10, ih (n / 10) (Nat.digitChar (n % 10) :: ds) hlt]
      conv_rhs => rw [digitsOf]
      rw [dif_neg (show ¬n < 10 by omega)]
      simp

theorem digitChar_sub_zero (m : Nat) (h : m < 10) :
    (Nat.digitChar m).toNat - '0'.toNat = m := by
  interval_cases m <;> decide

theorem digitChar_isDigit (m : Nat) (h : m < 10) :
    (Nat.digitChar m).isDigit = true := by
  interval_cases m <;> decide

theorem digitsOf_all_isDigit (n : Nat) : (digitsOf n).all Char.isDigit = true := by
  induction n using Nat.strong_induction_on with
  | _ n ih =>
    by_cases h : n < 10
    · rw [digitsOf, dif_pos h]
      simp [digitChar_isDigit n h]
    · rw [digitsOf, dif_neg h]
      simp [ih (n / 10) (Nat.div_lt_self (by omega) (by omega)),
        digitChar_isDigit (n % 10) (by omega)]

theorem foldl_digitsOf (n : Nat) : ∀ acc : Nat,
    (digitsOf n).foldl (fun a c => a * 10 + (c.toNat - '0'.toNat)) acc
      = acc * 10 ^ (digitsOf n).length + n := by
  induction n using Nat.strong_induction_on with
  | _ n ih =>
    intro acc
    by_cases h : n < 10
    · rw [digitsOf, dif_pos h]
      simp only [List.foldl_cons, List.foldl_nil, List.length_singleton, pow_one]
      rw [digitChar_sub_zero n h]
    · rw [digitsOf, dif_neg h, List.foldl_append,
        ih (n / 10) (Nat.div_lt_self (by omega) (by omega)) acc]
      simp only [List.foldl_cons, List.foldl_nil, List.length_append,
        List.length_singleton, digitChar_sub_zero (n % 10) (by omega), pow_succ]
      generalize (10 : Nat) ^ (digitsOf (n / 10)).length = P
      have key : n / 10 * 10 + n % 10 = n := by omega
      calc (acc * P + n / 10) * 10 + n % 10
          = acc * (P * 10) + (n / 10 * 10 + n % 10) := by ring
        _ = acc * (P * 10) + n := by rw [key]

theorem repr_data (n : Nat) : (Nat.repr n).data = digitsOf n := by
  show ((Nat.toDigits 10 n).asString).data = digitsOf n
  unfold Nat.toDigits
  rw [toDigitsCore_eq_digitsOf (n + 1) n [] (Nat.lt_succ_self n)]
  simp [List.asString]

theorem isoformat_isEmpty (x : Nat) : (isoformat x).isEmpty = false := by
  show (Nat.repr x).isEmpty = false
  rw [Bool.eq_false_iff]
  intro hc
  rw [String.isEmpty_iff] at hc
  have hd := congrArg String.data hc
  rw [repr_data] at hd
  exact digitsOf_ne_nil x (by simpa using hd)

theorem fromisoformat_isoformat (n : Nat) : fromisoformat (isoformat n) = n := by
  show (Nat.repr n).toNat! = n
  have hdata : (Nat.repr n).data = digitsOf n := repr_data n
  have h2 : (Nat.repr n).all Char.isDigit = true := by
    rw [String.all_eq, hdata]
    exact digitsOf_all_isDigit n
  have hisnat : (Nat.repr n).isNat = true := by
    unfold String.isNat
    have h1 : (Nat.repr n).isEmpty = false := isoformat_isEmpty n
    have h2' : ((Nat.repr n).all fun c => c.isDigit) = true := h2
    rw [h1, h2']
    rfl
  unfold String.toNat!
  rw [if_pos (by simpa using hisnat), String.foldl_eq, hdata, foldl_digitsOf n 0]
  simp

/-- `from_dict` inverts `to_dict` on every task. -/
theorem from_dict_to_dict (t : Task) : Task.from_dict (Task.to_dict t) = t := by
  unfold Task.from_dict Task.to_dict
  cases t with
  | mk tid title status created_at completed_at =>
    cases completed_at with
    | none => simp [fromisoformat_isoformat]
    | some x =>
      simp [Option.map, isoformat_isEmpty x, fromisoformat_isoformat]

/-! ## Lemmas about `findTask` and about the auxiliary list functions -/

theorem findTask_some : ∀ (l : List Task) (tid i : Nat) (t : Task),
    findTask l tid = some (i, t) → l[i]? = some t ∧ t.id = tid := by
  intro l
  induction l with
  | nil => intro tid i t h; simp [findTask] at h
  | cons a l ih =>
    intro tid i t h
    rw [findTask] at h
    by_cases ha : a.id == tid
    · rw [if_pos ha] at h
      obtain ⟨rfl, rfl⟩ : i = 0 ∧ a = t := by
        simpa [eq_comm, And.comm] using h
      exact ⟨by simp, by simpa using ha⟩
    · rw [if_neg ha] at h
      cases hft : findTask l tid with
      | none => rw [hft] at h; simp at h
      | some p =>
        obtain ⟨pi, pt⟩ := p
        rw [hft] at h
        simp only [Option.map_some'] at h
        obtain ⟨hi, ht⟩ : pi + 1 = i ∧ pt = t := by simpa [eq_comm, And.comm] using h
        obtain ⟨hg, hid⟩ := ih tid pi pt hft
        subst hi
        subst ht
        simpa using ⟨hg, hid⟩

theorem findTask_none_iff : ∀ (l : List Task) (tid : Nat),
    findTask l tid = none ↔ tid ∉ l.map Task.id := by
  intro l
  induction l with
  | nil => intro tid; simp [findTask]
  | cons a l ih =>
    intro tid
    rw [findTask]
    by_cases ha : a.id == tid
    · rw [if_pos ha]
      have : a.id = tid := by simpa using ha
      simp [this]
    · rw [if_neg ha]
      have hne : a.id ≠ tid := by simpa using ha
      simp [Option.map_eq_none', ih tid, hne, Ne.symm hne]

theorem findTask_of_mem (l : List Task) (tid : Nat) (h : tid ∈ l.map Task.id) :
    ∃ i t, findTask l tid = some (i, t) := by
  cases hft : findTask l tid with
  | none => exact absurd h ((findTask_none_iff l tid).mp hft)
  | some p =>
    obtain ⟨pi, pt⟩ := p
    exact ⟨pi, pt, rfl⟩

theorem findTask_set : ∀ (l : List Task) (tid i : Nat) (t t' : Task),
    findTask l tid = some (i, t) → t'.id = tid →
    findTask (l.set i t') tid = some (i, t') := by
  intro l
  induction l with
  | nil => intro tid i t t' h; simp [findTask] at h
  | cons a l ih =>
    intro tid i t t' h hid
    rw [findTask] at h
    by_cases ha : a.id == tid
    · rw [if_pos ha] at h
      obtain ⟨rfl, rfl⟩ : i = 0 ∧ a = t := by
        simpa [eq_comm, And.comm] using h
      simp [findTask, hid]
    · rw [if_neg ha] at h
      cases hft : findTask l tid with
      | none => rw [hft] at h; simp at h
      | some p =>
        obtain ⟨pi, pt⟩ := p
        rw [hft] at h
        simp only [Option.map_some'] at h
        obtain ⟨hi, ht⟩ : pi + 1 = i ∧ pt = t := by simpa [eq_comm, And.comm] using h
        subst hi
        subst ht
        rw [List.set_cons_succ, findTask, if_neg ha, ih tid pi pt t' hft hid]
        rfl

theorem set_of_getElem? {α : Type} : ∀ (l : List α) (i : Nat) (a : α),
    l[i]? = some a → l.set i a = l := by
  intro l
  induction l with
  | nil => intro i a h; simp at h
  | cons b l ih =>
    intro i a h
    cases i with
    | zero =>
      have : b = a := by simpa using h
      simp [this]
    | succ n =>
      rw [List.getElem?_cons_succ] at h
      rw [List.set_cons_succ, ih n a h]

theorem le_foldr_max (l : List Nat) (a : Nat) (h : a ∈ l) : a ≤ l.foldr max 0 := by
  induction l with
  | nil => cases h
  | cons b l ih =>
    rcases List.mem_cons.mp h with rfl | h'
    · simp [le_max_iff]
    · simpa [le_max_iff] using Or.inr (ih h')

theorem foldr_max_mem (l : List Nat) (h : l ≠ []) : l.foldr max 0 ∈ l := by
  induction l with
  | nil => exact absurd rfl h
  | cons b l ih =>
    cases l with
    | nil => simp
    | cons c m =>
      have ihm := ih (by simp)
      rcases max_choice b (List.foldr max 0 (c :: m)) with hm | hm
      · rw [List.foldr_cons, hm]
        exact List.mem_cons_self _ _
      · rw [List.foldr_cons, hm]
        exact List.mem_cons_of_mem _ ihm

/-- The two raise-site messages are never the same string (they differ at
character index 5: `'t'` of "title" against `'w'` of "with"). -/
theorem emptyTitleMsg_ne_notFoundMsg (tid : Nat) : emptyTitleMsg ≠ notFoundMsg tid := by
  intro hc
  have hd : emptyTitleMsg.data = (notFoundMsg tid).data := congrArg String.data hc
  have hl : emptyTitleMsg.data[5]? = (notFoundMsg tid).data[5]? := by rw [hd]
  have h1 : emptyTitleMsg.data[5]? = some 't' := by decide
  have h2 : (notFoundMsg tid).data[5]? = some 'w' := by
    show (("Task with id " ++ Nat.repr tid ++ " not found").data)[5]? = some 'w'
    rw [String.data_append, String.data_append]
    rw [List.getElem?_append_left (by
      rw [List.length_append]
      have h13 : ("Task with id ").data.length = 13 := by decide
      omega)]
    rw [List.getElem?_append_left (by decide)]
    decide
  rw [h1, h2] at hl
  exact absurd hl (by decide)

/-- Evaluation of `add_task` on a title whose stripped form is non-empty. -/
theorem add_task_success_eq (st : TodoList) (title : String) (now : Nat)
    (h : (strip title).isEmpty = false) :
    st.add_task title now
      = ⟨.ok { id := st.next_id, title := strip title, created_at := now },
         { st with next_id := st.next_id + 1,
                   tasks := st.tasks
                     ++ [{ id := st.next_id, title := strip title, created_at := now }] },
         TodoList.save
           { st with next_id := st.next_id + 1,
                     tasks := st.tasks
                       ++ [{ id := st.next_id, title := strip title, created_at := now }] }⟩ := by
  unfold TodoList.add_task
  rw [if_neg (by simp [h])]

/-- Evaluation of `update_task` when the title passes validation and
`_find_task_by_id` finds the task. -/
theorem update_task_found (st : TodoList) (tid : Nat) (title : String) (i : Nat) (t : Task)
    (h : (strip title).isEmpty = false)
    (hfind : findTask st.tasks tid = some (i, t)) :
    (st.update_task tid title).ret = .ok { t with title := strip title }
    ∧ (st.update_task tid title).state
        = { st with tasks := st.tasks.set i { t with title := strip title } } := by
  unfold TodoList.update_task TodoList.find_task_by_id
  rw [if_neg (by simp [h]), hfind]
  exact ⟨rfl, rfl⟩

/-- Reconstructing a `TodoList` from the serialized snapshot of a task
sequence restores that sequence and recomputes the counter. -/
theorem init_of_snapshot (p : String) (ts : List Task) :
    (TodoList.init (some p) (some (ts.map Task.to_dict))).tasks = ts
    ∧ (TodoList.init (some p) (some (ts.map Task.to_dict))).next_id
        = (ts.map Task.id).foldr max 0 + 1 := by
  have hparsed : (ts.map Task.to_dict).map Task.from_dict = ts := by
    rw [List.map_map]
    simp only [Function.comp_def, from_dict_to_dict, List.map_id']
  constructor
  · exact hparsed
  · show (((ts.map Task.to_dict).map Task.from_dict).map Task.id).foldr max 0 + 1 = _
    rw [hparsed]

/-- Evaluation of `mark_completed` when `_find_task_by_id` finds the task. -/
theorem mark_completed_found (st : TodoList) (tid now i : Nat) (t : Task)
    (hfind : findTask st.tasks tid = some (i, t)) :
    (st.mark_completed tid now).ret = .ok (t.mark_completed now)
    ∧ (st.mark_completed tid now).state
        = { st with tasks := st.tasks.set i (t.mark_completed now) } := by
  unfold TodoList.mark_completed TodoList.find_task_by_id
  rw [hfind]
  exact ⟨rfl, rfl⟩

/-! ## The claims -/

/-- **C1** (counterexample): the claim says the empty-title failure and the
unknown-id failure are distinct error kinds distinguishable by the caller.
In the code both raise sites construct the same exception class,
`ValueError`; at the concrete inputs `add_task("")` and
`mark_completed(99)` on an empty list the two error kinds coincide. -/
theorem c1_kinds_counterexample :
    errKind ((TodoList.init none none).add_task "" 0).ret
      = errKind ((TodoList.init none none).mark_completed 99 0).ret
    ∧ errKind ((TodoList.init none none).add_task "" 0).ret = some "ValueError" := by
  exact ⟨rfl, rfl⟩

/-- **C1** (amended): every failure mode raises the *same* error kind,
`ValueError`: `add_task` and `update_task` on an empty-after-stripping
title, and `mark_completed` and `update_task` on an unknown id, all raise
`ValueError`.  The empty-title failures and the unknown-id failures are
distinguishable by the caller only through the two distinct messages
("Task title cannot be empty" versus "Task with id N not found"). -/
theorem c1_same_kind_distinct_messages (st : TodoList) (title goodtitle : String)
    (tid now : Nat)
    (hempty : (strip title).isEmpty = true)
    (hgood : (strip goodtitle).isEmpty = false)
    (hmissing : tid ∉ st.tasks.map Task.id) :
    ∃ e₁ e₂ e₃ e₄ : PyError,
      (st.add_task title now).ret = .error e₁
      ∧ (st.mark_completed tid now).ret = .error e₂
      ∧ (st.update_task tid title).ret = .error e₃
      ∧ (st.update_task tid goodtitle).ret = .error e₄
      ∧ e₁.kind = "ValueError" ∧ e₂.kind = "ValueError"
      ∧ e₃.kind = "ValueError" ∧ e₄.kind = "ValueError"
      ∧ e₁.kind = e₂.kind ∧ e₂.kind = e₃.kind ∧ e₃.kind = e₄.kind
      ∧ e₁.msg = emptyTitleMsg ∧ e₃.msg = emptyTitleMsg
      ∧ e₂.msg = notFoundMsg tid ∧ e₄.msg = notFoundMsg tid
      ∧ e₁.msg ≠ e₂.msg := by
  have hfind : findTask st.tasks tid = none := (findTask_none_iff st.tasks tid).mpr hmissing
  refine ⟨⟨"ValueError", emptyTitleMsg⟩, ⟨"ValueError", notFoundMsg tid⟩,
    ⟨"ValueError", emptyTitleMsg⟩, ⟨"ValueError", notFoundMsg tid⟩,
    ?_, ?_, ?_, ?_, rfl, rfl, rfl, rfl, rfl, rfl, rfl, rfl, rfl, rfl, rfl,
    emptyTitleMsg_ne_notFoundMsg tid⟩
  · unfold TodoList.add_task
    rw [if_pos hempty]
  · unfold TodoList.mark_completed TodoList.find_task_by_id
    rw [hfind]
  · unfold TodoList.update_task
    rw [if_pos hempty]
  · unfold TodoList.update_task TodoList.find_task_by_id
    rw [if_neg (by simp [hgood]), hfind]

/-- **C1** (witness for the amended theorem): on the empty list,
`add_task("   ")`, `update_task(99, "   ")`, `mark_completed(99)` and
`update_task(99, "Walk dog")` all raise a `ValueError`, the empty-title
and unknown-id failures carrying the two distinct messages. -/
theorem c1_same_kind_witness :
    (strip "   ").isEmpty = true
    ∧ (strip "Walk dog").isEmpty = false
    ∧ (99 ∉ (TodoList.init none none).tasks.map Task.id)
    ∧ ∃ e₁ e₂ e₃ e₄ : PyError,
        ((TodoList.init none none).add_task "   " 0).ret = .error e₁
        ∧ ((TodoList.init none none).mark_completed 99 0).ret = .error e₂
        ∧ ((TodoList.init none none).update_task 99 "   ").ret = .error e₃
        ∧ ((TodoList.init none none).update_task 99 "Walk dog").ret = .error e₄
        ∧ e₁.kind = "ValueError" ∧ e₂.kind = "ValueError"
        ∧ e₃.kind = "ValueError" ∧ e₄.kind = "ValueError"
        ∧ e₁.kind = e₂.kind ∧ e₂.kind = e₃.kind ∧ e₃.kind = e₄.kind
        ∧ e₁.msg = emptyTitleMsg ∧ e₃.msg = emptyTitleMsg
        ∧ e₂.msg = notFoundMsg 99 ∧ e₄.msg = notFoundMsg 99
        ∧ e₁.msg ≠ e₂.msg := by
  refine ⟨by decide, by decide, by decide, ?_⟩
  obtain ⟨e₁, e₂, e₃, e₄, h⟩ :=
    c1_same_kind_distinct_messages (TodoList.init none none) "   " "Walk dog" 99 0
      (by decide) (by decide) (by decide)
  exact ⟨e₁, e₂, e₃, e₄, h⟩

/-- **C2**: whenever `add_task`, `update_task` or `mark_completed` fails —
empty stripped title or unknown id — the manager state (task sequence,
every task's fields, next-id counter, store configuration) is exactly what
it was before the call, and no persistence write is performed. -/
theorem c2_failure_is_pure (st : TodoList) (badtitle : String) (tid now : Nat) :
    ((strip badtitle).isEmpty = true →
        (st.add_task badtitle now).state = st ∧ (st.add_task badtitle now).writes = []
        ∧ (st.update_task tid badtitle).state = st
        ∧ (st.update_task tid badtitle).writes = [])
    ∧ (tid ∉ st.tasks.map Task.id →
        (st.mark_completed tid now).state = st ∧ (st.mark_completed tid now).writes = []
        ∧ ∀ title : String, (st.update_task tid title).state = st
            ∧ (st.update_task tid title).writes = []) := by
  constructor
  · intro hempty
    unfold TodoList.add_task TodoList.update_task
    rw [if_pos hempty, if_pos hempty]
    exact ⟨rfl, rfl, rfl, rfl⟩
  · intro hmissing
    have hfind : findTask st.tasks tid = none := (findTask_none_iff st.tasks tid).mpr hmissing
    refine ⟨?_, ?_, ?_⟩
    · unfold TodoList.mark_completed TodoList.find_task_by_id
      rw [hfind]
    · unfold TodoList.mark_completed TodoList.find_task_by_id
      rw [hfind]
    · intro title
      unfold TodoList.update_task TodoList.find_task_by_id
      by_cases hempty : (strip title).isEmpty
      · rw [if_pos hempty]
        exact ⟨rfl, rfl⟩
      · rw [if_neg hempty, hfind]
        exact ⟨rfl, rfl⟩

/-- **C2** (witness): `add_task("   ")` and `mark_completed(99)` on a
one-task list leave the state untouched and write nothing. -/
theorem c2_failure_witness :
    ((strip "   ").isEmpty = true
      ∧ (let st : TodoList := ⟨none, [⟨1, "Buy milk", "pending", 0, none⟩], 2⟩;
         (st.add_task "   " 3).state = st ∧ (st.add_task "   " 3).writes = []
         ∧ (st.update_task 99 "   ").state = st ∧ (st.update_task 99 "   ").writes = []))
    ∧ ((99 ∉ (⟨none, [⟨1, "Buy milk", "pending", 0, none⟩], 2⟩ : TodoList).tasks.map Task.id)
      ∧ (let st : TodoList := ⟨none, [⟨1, "Buy milk", "pending", 0, none⟩], 2⟩;
         (st.mark_completed 99 3).state = st ∧ (st.mark_completed 99 3).writes = [])) := by
  constructor
  · exact ⟨by decide,
      ((c2_failure_is_pure ⟨none, [⟨1, "Buy milk", "pending", 0, none⟩], 2⟩ "   " 99 3).1
        (by decide))⟩
  · refine ⟨by decide, ?_⟩
    have h := (c2_failure_is_pure ⟨none, [⟨1, "Buy milk", "pending", 0, none⟩], 2⟩ "   " 99 3).2
      (by decide)
    exact ⟨h.1, h.2.1⟩

/-- **C5**: for every title whose stripped form is non-empty, `add_task`
creates a task carrying the current next id, pending status and the current
timestamp, appends it at the end of the sequence, bumps the counter,
persists exactly when a store is configured, and returns the new task. -/
theorem c5_add_task_success (st : TodoList) (title : String) (now : Nat)
    (h : (strip title).isEmpty = false) :
    ∃ task : Task,
      (st.add_task title now).ret = .ok task
      ∧ task.id = st.next_id
      ∧ task.status = "pending"
      ∧ task.created_at = now
      ∧ task.completed_at = none
      ∧ (st.add_task title now).state.tasks = st.tasks ++ [task]
      ∧ (st.add_task title now).state.next_id = st.next_id + 1
      ∧ (st.add_task title now).state.storage_path = st.storage_path
      ∧ (∀ p, st.storage_path = some p →
          (st.add_task title now).writes = [(st.tasks ++ [task]).map Task.to_dict])
      ∧ (st.storage_path = none → (st.add_task title now).writes = []) := by
  refine ⟨{ id := st.next_id, title := strip title, created_at := now }, ?_⟩
  unfold TodoList.add_task
  rw [if_neg (by simp [h])]
  refine ⟨rfl, rfl, rfl, rfl, rfl, rfl, rfl, rfl, ?_, ?_⟩
  · intro p hp
    unfold TodoList.save
    rw [hp]
  · intro hp
    unfold TodoList.save
    rw [hp]

/-- **C5** (witness): adding "Buy milk" to an empty fresh list yields task
id 1, pending, created at tick 7, appended, with no write (no store). -/
theorem c5_add_task_witness :
    (strip "Buy milk").isEmpty = false
    ∧ ∃ task : Task,
        ((TodoList.init none none).add_task "Buy milk" 7).ret = .ok task
        ∧ task.id = 1
        ∧ task.status = "pending"
        ∧ task.created_at = 7
        ∧ task.completed_at = none := by
  refine ⟨by decide, ?_⟩
  obtain ⟨task, hret, hid, hstatus, hcreated, hcompleted, -⟩ :=
    c5_add_task_success (TodoList.init none none) "Buy milk" 7 (by decide)
  exact ⟨task, hret, hid, hstatus, hcreated, hcompleted⟩

/-- **C10**: the task stored and returned by `add_task` carries the
*stripped* title, and `update_task` likewise stores the stripped new
title (replacing only that task, in place). -/
theorem c10_titles_stripped (st : TodoList) (title : String) (now tid : Nat)
    (h : (strip title).isEmpty = false) :
    (∃ task : Task, (st.add_task title now).ret = .ok task
        ∧ task.title = strip title
        ∧ (st.add_task title now).state.tasks = st.tasks ++ [task])
    ∧ (∀ i t, findTask st.tasks tid = some (i, t) →
        ∃ t' : Task, (st.update_task tid title).ret = .ok t'
          ∧ t'.title = strip title
          ∧ t'.id = t.id ∧ t'.status = t.status ∧ t'.created_at = t.created_at
          ∧ t'.completed_at = t.completed_at
          ∧ (st.update_task tid title).state.tasks = st.tasks.set i t') := by
  constructor
  · refine ⟨{ id := st.next_id, title := strip title, created_at := now }, ?_⟩
    unfold TodoList.add_task
    rw [if_neg (by simp [h])]
    exact ⟨rfl, rfl, rfl⟩
  · intro i t hfind
    refine ⟨{ t with title := strip title }, ?_⟩
    unfold TodoList.update_task TodoList.find_task_by_id
    rw [if_neg (by simp [h]), hfind]
    exact ⟨rfl, rfl, rfl, rfl, rfl, rfl, rfl⟩

/-- **C10** (witness): `add_task("  Buy milk  ")` stores title "Buy milk";
updating task 1 with "  Walk dog " stores "Walk dog". -/
theorem c10_titles_witness :
    (strip "  Walk dog ").isEmpty = false
    ∧ (∃ t' : Task,
        ((⟨none, [⟨1, "Buy milk", "pending", 0, none⟩], 2⟩ : TodoList).update_task
            1 "  Walk dog ").ret = .ok t'
        ∧ t'.title = strip "  Walk dog "
        ∧ t'.title = "Walk dog") := by
  refine ⟨by decide, ?_⟩
  obtain ⟨t', hret, htitle, -⟩ :=
    (c10_titles_stripped ⟨none, [⟨1, "Buy milk", "pending", 0, none⟩], 2⟩ "  Walk dog " 5 1
      (by decide)).2 0 ⟨1, "Buy milk", "pending", 0, none⟩ (by decide)
  refine ⟨t', hret, htitle, ?_⟩
  rw [htitle]
  decide

/-- **C6**: for every id held by some task, `mark_completed(id)` sets that
task's status to completed, stamps `completed_at` with the (non-null)
current time, persists when a store is configured, and returns the task;
for an id no task holds it fails with the not-found `ValueError`. -/
theorem c6_mark_completed (st : TodoList) (tid now : Nat) :
    (tid ∈ st.tasks.map Task.id →
      ∃ i t, findTask st.tasks tid = some (i, t)
        ∧ t.id = tid
        ∧ (st.mark_completed tid now).ret = .ok (t.mark_completed now)
        ∧ (t.mark_completed now).status = "completed"
        ∧ (t.mark_completed now).completed_at = some now
        ∧ (t.mark_completed now).completed_at ≠ none
        ∧ (st.mark_completed tid now).state.tasks
            = st.tasks.set i (t.mark_completed now)
        ∧ (st.mark_completed tid now).state.next_id = st.next_id
        ∧ (∀ p, st.storage_path = some p →
            (st.mark_completed tid now).writes
              = [(st.tasks.set i (t.mark_completed now)).map Task.to_dict])
        ∧ (st.storage_path = none → (st.mark_completed tid now).writes = []))
    ∧ (tid ∉ st.tasks.map Task.id →
        (st.mark_completed tid now).ret = .error ⟨"ValueError", notFoundMsg tid⟩
        ∧ (st.mark_completed tid now).state = st) := by
  constructor
  · intro hmem
    obtain ⟨i, t, hfind⟩ := findTask_of_mem st.tasks tid hmem
    obtain ⟨-, hid⟩ := findTask_some st.tasks tid i t hfind
    refine ⟨i, t, hfind, hid, ?_⟩
    unfold TodoList.mark_completed TodoList.find_task_by_id
    rw [hfind]
    refine ⟨rfl, rfl, rfl, by simp [Task.mark_completed], rfl, rfl, ?_, ?_⟩
    · intro p hp
      unfold TodoList.save
      rw [hp]
    · intro hp
      unfold TodoList.save
      rw [hp]
  · intro hmissing
    have hfind : findTask st.tasks tid = none := (findTask_none_iff st.tasks tid).mpr hmissing
    unfold TodoList.mark_completed TodoList.find_task_by_id
    rw [hfind]
    exact ⟨rfl, rfl⟩

/-- **C6** (witness): on a list holding task id 1 "Buy milk" pending,
`mark_completed(1)` returns the task completed with `completed_at = 5`;
`mark_completed(99)` fails with the not-found error. -/
theorem c6_mark_completed_witness :
    (1 ∈ (⟨none, [⟨1, "Buy milk", "pending", 0, none⟩], 2⟩ : TodoList).tasks.map Task.id)
    ∧ ((⟨none, [⟨1, "Buy milk", "pending", 0, none⟩], 2⟩ : TodoList).mark_completed 1 5).ret
        = .ok ⟨1, "Buy milk", "completed", 0, some 5⟩
    ∧ (99 ∉ (⟨none, [⟨1, "Buy milk", "pending", 0, none⟩], 2⟩ : TodoList).tasks.map Task.id)
    ∧ ((⟨none, [⟨1, "Buy milk", "pending", 0, none⟩], 2⟩ : TodoList).mark_completed 99 5).ret
        = .error ⟨"ValueError", notFoundMsg 99⟩ := by
  refine ⟨by decide, ?_, by decide, ?_⟩
  · obtain ⟨i, t, hfind, hid, hret, -⟩ :=
      (c6_mark_completed ⟨none, [⟨1, "Buy milk", "pending", 0, none⟩], 2⟩ 1 5).1 (by decide)
    have hi : i = 0 ∧ t = ⟨1, "Buy milk", "pending", 0, none⟩ := by
      have : findTask [⟨1, "Buy milk", "pending", 0, none⟩] 1
          = some (0, ⟨1, "Buy milk", "pending", 0, none⟩) := by decide
      rw [this] at hfind
      constructor
      · exact (Prod.mk.injEq _ _ _ _ ▸ (Option.some.injEq _ _ ▸ hfind.symm)).1
      · exact (Prod.mk.injEq _ _ _ _ ▸ (Option.some.injEq _ _ ▸ hfind.symm)).2
    rw [hi.2] at hret
    exact hret
  · exact ((c6_mark_completed ⟨none, [⟨1, "Buy milk", "pending", 0, none⟩], 2⟩ 99 5).2
      (by decide)).1

/-- **C8**: `list_tasks` returns the task sequence itself in insertion
order as a value-semantic snapshot (the embedding of `list(self._tasks)`,
a fresh list, so sequence mutation by the caller cannot reach the
manager), and neither `mark_completed` nor `update_task` reorders the
sequence: the sequence of ids is unchanged. -/
theorem c8_snapshot_order (st : TodoList) (tid now : Nat) (title : String) :
    st.list_tasks = st.tasks
    ∧ (st.mark_completed tid now).state.tasks.map Task.id = st.tasks.map Task.id
    ∧ (st.update_task tid title).state.tasks.map Task.id = st.tasks.map Task.id := by
  refine ⟨rfl, ?_, ?_⟩
  · cases hfind : findTask st.tasks tid with
    | none =>
      unfold TodoList.mark_completed TodoList.find_task_by_id
      rw [hfind]
    | some p =>
      obtain ⟨i, t⟩ := p
      obtain ⟨hget, hid⟩ := findTask_some st.tasks tid i t hfind
      unfold TodoList.mark_completed TodoList.find_task_by_id
      rw [hfind]
      show (st.tasks.set i (t.mark_completed now)).map Task.id = st.tasks.map Task.id
      rw [List.map_set]
      exact set_of_getElem? _ i _ (by rw [List.getElem?_map, hget]; rfl)
  · by_cases hempty : (strip title).isEmpty
    · unfold TodoList.update_task
      rw [if_pos hempty]
    · cases hfind : findTask st.tasks tid with
      | none =>
        unfold TodoList.update_task TodoList.find_task_by_id
        rw [if_neg hempty, hfind]
      | some p =>
        obtain ⟨i, t⟩ := p
        obtain ⟨hget, hid⟩ := findTask_some st.tasks tid i t hfind
        unfold TodoList.update_task TodoList.find_task_by_id
        rw [if_neg hempty, hfind]
        show (st.tasks.set i { t with title := strip title }).map Task.id
            = st.tasks.map Task.id
        rw [List.map_set]
        exact set_of_getElem? _ i _ (by rw [List.getElem?_map, hget]; rfl)

/-- **C9**: a second `mark_completed` on an already-completed task is not a
no-op: the status stays "completed" but `completed_at` is re-stamped with
the then-current time, so for a different tick the returned task differs. -/
theorem c9_recompletion_restamps (st : TodoList) (tid now now' : Nat)
    (h : tid ∈ st.tasks.map Task.id) :
    ∃ t₁ t₂ : Task,
      (st.mark_completed tid now).ret = .ok t₁
      ∧ ((st.mark_completed tid now).state.mark_completed tid now').ret = .ok t₂
      ∧ t₁.status = "completed" ∧ t₁.completed_at = some now
      ∧ t₂.status = "completed" ∧ t₂.completed_at = some now'
      ∧ (now' ≠ now → t₂ ≠ t₁) := by
  obtain ⟨i, t, hfind⟩ := findTask_of_mem st.tasks tid h
  obtain ⟨hget, hid⟩ := findTask_some st.tasks tid i t hfind
  obtain ⟨hret₁, hstate₁⟩ := mark_completed_found st tid now i t hfind
  have hfind₂ : findTask (st.mark_completed tid now).state.tasks tid
      = some (i, t.mark_completed now) := by
    rw [hstate₁]
    exact findTask_set st.tasks tid i t (t.mark_completed now) hfind hid
  obtain ⟨hret₂, -⟩ :=
    mark_completed_found (st.mark_completed tid now).state tid now' i
      (t.mark_completed now) hfind₂
  refine ⟨t.mark_completed now, (t.mark_completed now).mark_completed now',
    hret₁, hret₂, rfl, rfl, rfl, rfl, ?_⟩
  intro hne hc
  have : some now' = some now := congrArg Task.completed_at hc
  exact hne (by simpa using this)

/-- **C9** (witness): completing task 1 at tick 5 and again at tick 9
returns a task stamped `completed_at = 9`, different from the first. -/
theorem c9_recompletion_witness :
    (1 ∈ (⟨none, [⟨1, "Buy milk", "pending", 0, none⟩], 2⟩ : TodoList).tasks.map Task.id)
    ∧ ∃ t₁ t₂ : Task,
        ((⟨none, [⟨1, "Buy milk", "pending", 0, none⟩], 2⟩ : TodoList).mark_completed 1 5).ret
          = .ok t₁
        ∧ (((⟨none, [⟨1, "Buy milk", "pending", 0, none⟩], 2⟩ : TodoList).mark_completed
              1 5).state.mark_completed 1 9).ret = .ok t₂
        ∧ t₂.completed_at = some 9 ∧ t₂ ≠ t₁ := by
  refine ⟨by decide, ?_⟩
  obtain ⟨t₁, t₂, h1, h2, -, -, -, h6, h7⟩ :=
    c9_recompletion_restamps ⟨none, [⟨1, "Buy milk", "pending", 0, none⟩], 2⟩ 1 5 9 (by decide)
  exact ⟨t₁, t₂, h1, h2, h6, h7 (by decide)⟩

/-- **C3**: persisting any list with a configured store writes exactly the
serialized snapshot, and constructing a fresh `TodoList` over that
snapshot reconstructs the identical ordered task sequence (ids, titles,
statuses, and both timestamps, `completed_at`'s null being an explicit
absence marker in the record) with a next-id counter of `max(ids) + 1`,
or `1` when the list was empty. -/
theorem c3_roundtrip (st : TodoList) (p : String) (hp : st.storage_path = some p) :
    st.save = [st.tasks.map Task.to_dict]
    ∧ (TodoList.init (some p) (some (st.tasks.map Task.to_dict))).tasks = st.tasks
    ∧ (TodoList.init (some p) (some (st.tasks.map Task.to_dict))).storage_path = some p
    ∧ (st.tasks = [] →
        (TodoList.init (some p) (some (st.tasks.map Task.to_dict))).next_id = 1)
    ∧ (st.tasks ≠ [] →
        ∃ t ∈ st.tasks, (∀ u ∈ st.tasks, u.id ≤ t.id)
          ∧ (TodoList.init (some p) (some (st.tasks.map Task.to_dict))).next_id = t.id + 1)
    ∧ (∀ u : Task, (Task.to_dict u).completed_at = none ↔ u.completed_at = none) := by
  have hparsed : (st.tasks.map Task.to_dict).map Task.from_dict = st.tasks := by
    rw [List.map_map]
    simp only [Function.comp_def, from_dict_to_dict, List.map_id']
  have htasks : (TodoList.init (some p) (some (st.tasks.map Task.to_dict))).tasks
      = st.tasks := hparsed
  have hnext' : (TodoList.init (some p) (some (st.tasks.map Task.to_dict))).next_id
      = ((st.tasks.map Task.id).foldr max 0) + 1 := by
    show (((st.tasks.map Task.to_dict).map Task.from_dict).map Task.id).foldr max 0 + 1 = _
    rw [hparsed]
  refine ⟨?_, htasks, rfl, ?_, ?_, ?_⟩
  · unfold TodoList.save
    rw [hp]
  · intro hempty
    rw [hnext', hempty]
    rfl
  · intro hne
    have hmapne : st.tasks.map Task.id ≠ [] := by
      simpa using hne
    have hmem : (st.tasks.map Task.id).foldr max 0 ∈ st.tasks.map Task.id :=
      foldr_max_mem _ hmapne
    obtain ⟨t, htmem, htid⟩ := List.mem_map.mp hmem
    refine ⟨t, htmem, ?_, ?_⟩
    · intro u humem
      rw [htid]
      exact le_foldr_max _ _ (List.mem_map_of_mem Task.id humem)
    · rw [hnext', htid]
  · intro u
    cases hu : u.completed_at with
    | none => simp [Task.to_dict, hu]
    | some x => simp [Task.to_dict, hu]

/-- **C3** (witness): a two-task list (one completed) with a store
round-trips: reloading the saved snapshot reproduces the tasks and sets
the counter to `max(ids) + 1 = 3`. -/
theorem c3_roundtrip_witness :
    ((⟨some "todo_data.json",
        [⟨1, "A", "completed", 2, some 6⟩, ⟨2, "B", "pending", 4, none⟩], 7⟩ :
          TodoList).storage_path = some "todo_data.json")
    ∧ (TodoList.init (some "todo_data.json")
        (some (([⟨1, "A", "completed", 2, some 6⟩, ⟨2, "B", "pending", 4, none⟩] :
          List Task).map Task.to_dict))).tasks
        = [⟨1, "A", "completed", 2, some 6⟩, ⟨2, "B", "pending", 4, none⟩]
    ∧ (TodoList.init (some "todo_data.json")
        (some (([⟨1, "A", "completed", 2, some 6⟩, ⟨2, "B", "pending", 4, none⟩] :
          List Task).map Task.to_dict))).next_id = 3 := by
  refine ⟨rfl, ?_, ?_⟩
  · exact (c3_roundtrip
      ⟨some "todo_data.json",
        [⟨1, "A", "completed", 2, some 6⟩, ⟨2, "B", "pending", 4, none⟩], 7⟩
      "todo_data.json" rfl).2.1
  · obtain ⟨t, htmem, hmax, hnext⟩ := (c3_roundtrip
      ⟨some "todo_data.json",
        [⟨1, "A", "completed", 2, some 6⟩, ⟨2, "B", "pending", 4, none⟩], 7⟩
      "todo_data.json" rfl).2.2.2.2.1 (by decide)
    have ht : t = ⟨2, "B", "pending", 4, none⟩ := by
      have h2 : (2 : Nat) ≤ t.id := hmax ⟨2, "B", "pending", 4, none⟩ (by decide)
      rcases List.mem_cons.mp htmem with rfl | h'
      · exact absurd h2 (by decide)
      · rcases List.mem_cons.mp h' with rfl | h''
        · rfl
        · cases h''
    rw [hnext, ht]

/-- Running a script of validly-titled `add_task` calls and `clear` calls
yields exactly the ids `next_id, next_id+1, ...` in order, and advances
the counter by the number of adds. -/
theorem runOps_ids : ∀ (ops : List ListOp) (st : TodoList), validTitles ops = true →
    (runOps st ops).2 = List.range' st.next_id (addCount ops)
    ∧ (runOps st ops).1.next_id = st.next_id + addCount ops := by
  intro ops
  induction ops with
  | nil => intro st hv; simp [runOps, addCount]
  | cons op rest ih =>
    intro st hv
    cases op with
    | add title now =>
      have hv' : (strip title).isEmpty = false ∧ validTitles rest = true := by
        simpa [validTitles, Bool.and_eq_true] using hv
      have hnext1 : (st.add_task title now).state.next_id = st.next_id + 1 := by
        rw [add_task_success_eq st title now hv'.1]
      have hrun : runOps st (ListOp.add title now :: rest)
          = ((runOps (st.add_task title now).state rest).1,
             st.next_id :: (runOps (st.add_task title now).state rest).2) := by
        show (let r := st.add_task title now
              let res := runOps r.state rest
              match r.ret with
              | .ok t => (res.1, t.id :: res.2)
              | .error _ => (res.1, res.2)) = _
        rw [add_task_success_eq st title now hv'.1]
      obtain ⟨h1, h2⟩ := ih (st.add_task title now).state hv'.2
      rw [hrun]
      constructor
      · show st.next_id :: (runOps (st.add_task title now).state rest).2
            = List.range' st.next_id (addCount rest + 1)
        rw [h1, hnext1, List.range'_succ]
      · show (runOps (st.add_task title now).state rest).1.next_id
            = st.next_id + (addCount rest + 1)
        rw [h2, hnext1]
        omega
    | clear =>
      have hv' : validTitles rest = true := by simpa [validTitles] using hv
      have hcnext : (st.clear).state.next_id = st.next_id := rfl
      obtain ⟨h1, h2⟩ := ih (st.clear).state hv'
      constructor
      · show (runOps (st.clear).state rest).2 = List.range' st.next_id (addCount rest)
        rw [h1, hcnext]
      · show (runOps (st.clear).state rest).1.next_id = st.next_id + addCount rest
        rw [h2, hcnext]

/-- **C4**: starting from an empty list, any script of successful
`add_task` calls with `clear()` calls interleaved assigns exactly the ids
1, 2, 3, … in order, with no gap or reuse; `clear()` empties `list_tasks()`
to length 0 without resetting the counter, so an `add_task` right after a
`clear` returns an id strictly greater than every id handed out before. -/
theorem c4_ids_monotone (ops : List ListOp) (h : validTitles ops = true)
    (title : String) (now : Nat) (htitle : (strip title).isEmpty = false) :
    (runOps (TodoList.init none none) ops).2 = List.range' 1 (addCount ops)
    ∧ ((runOps (TodoList.init none none) ops).1.clear).state.list_tasks.length = 0
    ∧ ((runOps (TodoList.init none none) ops).1.clear).state.next_id
        = (runOps (TodoList.init none none) ops).1.next_id
    ∧ ∃ t : Task,
        (((runOps (TodoList.init none none) ops).1.clear).state.add_task title now).ret
          = .ok t
        ∧ ∀ i ∈ (runOps (TodoList.init none none) ops).2, i < t.id := by
  obtain ⟨hids, hnext⟩ := runOps_ids ops (TodoList.init none none) h
  have hinit : (TodoList.init none none).next_id = 1 := rfl
  rw [hinit] at hids hnext
  refine ⟨hids, rfl, rfl, ?_⟩
  have hclear : ((runOps (TodoList.init none none) ops).1.clear).state.next_id
      = 1 + addCount ops := by
    show (runOps (TodoList.init none none) ops).1.next_id = 1 + addCount ops
    exact hnext
  rw [add_task_success_eq _ title now htitle]
  refine ⟨_, rfl, ?_⟩
  intro i hi
  rw [hids] at hi
  obtain ⟨j, hj, hij⟩ := List.mem_range'.mp hi
  show i < ((runOps (TodoList.init none none) ops).1.clear).state.next_id
  rw [hclear]
  omega

/-- **C4** (witness): the script add "A", add "B", clear, add "C" hands out
ids [1, 2, 3]; after the final clear the list is empty and a further add
returns an id above all three. -/
theorem c4_ids_witness :
    validTitles [ListOp.add "A" 0, ListOp.add "B" 1, ListOp.clear, ListOp.add "C" 2] = true
    ∧ (strip "D").isEmpty = false
    ∧ (runOps (TodoList.init none none)
        [ListOp.add "A" 0, ListOp.add "B" 1, ListOp.clear, ListOp.add "C" 2]).2 = [1, 2, 3]
    ∧ ∃ t : Task,
        (((runOps (TodoList.init none none)
            [ListOp.add "A" 0, ListOp.add "B" 1, ListOp.clear, ListOp.add "C" 2]).1.clear
          ).state.add_task "D" 9).ret = .ok t
        ∧ ∀ i ∈ (runOps (TodoList.init none none)
            [ListOp.add "A" 0, ListOp.add "B" 1, ListOp.clear, ListOp.add "C" 2]).2,
            i < t.id := by
  refine ⟨by decide, by decide, ?_⟩
  obtain ⟨hids, -, -, ht⟩ := c4_ids_monotone
    [ListOp.add "A" 0, ListOp.add "B" 1, ListOp.clear, ListOp.add "C" 2]
    (by decide) "D" 9 (by decide)
  exact ⟨by rw [hids]; rfl, ht⟩

/-- **C7**: in every `TodoList` state reachable through the public
operations — including construction over a snapshot persisted by a
reachable list — all task ids are distinct and every task's id is strictly
below the next-id counter. -/
theorem c7_reachable_invariant (st : TodoList) (h : Reachable st) : Invariant st := by
  induction h with
  | boot p =>
    cases p <;> exact ⟨List.nodup_nil, by intro t ht; cases ht⟩
  | reload st p hst hp ih =>
    obtain ⟨htasks, hnext⟩ := init_of_snapshot p st.tasks
    constructor
    · rw [htasks]
      exact ih.1
    · intro t ht
      rw [htasks] at ht
      rw [hnext]
      have := le_foldr_max (st.tasks.map Task.id) t.id (List.mem_map_of_mem Task.id ht)
      omega
  | add st title now hst ih =>
    by_cases hempty : (strip title).isEmpty
    · have hstate : (st.add_task title now).state = st := by
        unfold TodoList.add_task
        rw [if_pos hempty]
      rw [hstate]
      exact ih
    · have hfalse : (strip title).isEmpty = false := by simpa using hempty
      rw [add_task_success_eq st title now hfalse]
      have hnotin : st.next_id ∉ st.tasks.map Task.id := by
        intro hmem
        obtain ⟨u, hu, huid⟩ := List.mem_map.mp hmem
        have := ih.2 u hu
        omega
      constructor
      · show ((st.tasks
            ++ [({ id := st.next_id, title := strip title, created_at := now } : Task)]).map
              Task.id).Nodup
        rw [List.map_append]
        refine List.Nodup.append ih.1 (by simp) ?_
        intro a ha hb
        simp only [List.map_cons, List.map_nil, List.mem_singleton] at hb
        subst hb
        exact hnotin ha
      · intro u hu
        rcases List.mem_append.mp hu with h1 | h1
        · have := ih.2 u h1
          show u.id < st.next_id + 1
          omega
        · have : u = { id := st.next_id, title := strip title, created_at := now } := by
            simpa using h1
          subst this
          show st.next_id < st.next_id + 1
          omega
  | complete st tid now hst ih =>
    cases hf : findTask st.tasks tid with
    | none =>
      have hstate : (st.mark_completed tid now).state = st := by
        unfold TodoList.mark_completed TodoList.find_task_by_id
        rw [hf]
      rw [hstate]
      exact ih
    | some p =>
      obtain ⟨i, t⟩ := p
      obtain ⟨hget, hid⟩ := findTask_some st.tasks tid i t hf
      obtain ⟨-, hstate⟩ := mark_completed_found st tid now i t hf
      rw [hstate]
      constructor
      · show ((st.tasks.set i (t.mark_completed now)).map Task.id).Nodup
        rw [List.map_set]
        rw [set_of_getElem? _ i _ (by rw [List.getElem?_map, hget]; rfl)]
        exact ih.1
      · intro u hu
        rcases List.mem_or_eq_of_mem_set hu with h1 | h1
        · exact ih.2 u h1
        · subst h1
          show t.id < st.next_id
          exact ih.2 t (List.getElem?_mem hget)
  | update st tid title hst ih =>
    by_cases hempty : (strip title).isEmpty
    · have hstate : (st.update_task tid title).state = st := by
        unfold TodoList.update_task
        rw [if_pos hempty]
      rw [hstate]
      exact ih
    · have hfalse : (strip title).isEmpty = false := by simpa using hempty
      cases hf : findTask st.tasks tid with
      | none =>
        have hstate : (st.update_task tid title).state = st := by
          unfold TodoList.update_task TodoList.find_task_by_id
          rw [if_neg (by simp [hfalse]), hf]
        rw [hstate]
        exact ih
      | some p =>
        obtain ⟨i, t⟩ := p
        obtain ⟨hget, hid⟩ := findTask_some st.tasks tid i t hf
        obtain ⟨-, hstate⟩ := update_task_found st tid title i t hfalse hf
        rw [hstate]
        constructor
        · show ((st.tasks.set i { t with title := strip title }).map Task.id).Nodup
          rw [List.map_set]
          rw [set_of_getElem? _ i _ (by rw [List.getElem?_map, hget]; rfl)]
          exact ih.1
        · intro u hu
          rcases List.mem_or_eq_of_mem_set hu with h1 | h1
          · exact ih.2 u h1
          · subst h1
            show t.id < st.next_id
            exact ih.2 t (List.getElem?_mem hget)
  | wipe st hst ih =>
    exact ⟨List.nodup_nil, by intro t ht; cases ht⟩

/-- **C7** (witness): the state reached by booting an empty list and adding
"Buy milk" is reachable, and the invariant holds there. -/
theorem c7_invariant_witness :
    Reachable ((TodoList.init none none).add_task "Buy milk" 3).state
    ∧ Invariant ((TodoList.init none none).add_task "Buy milk" 3).state := by
  have hr : Reachable ((TodoList.init none none).add_task "Buy milk" 3).state :=
    Reachable.add (TodoList.init none none) "Buy milk" 3 (Reachable.boot none)
  exact ⟨hr, c7_reachable_invariant _ hr⟩

end Todo
